import Mathlib

/-!
Shallow embedding of the game engine in `src/App.js` (Gameflappy).
JavaScript numbers are modelled as rationals; the engine state held in the
React refs and `useState` cells is collected into one `GameState` record.
Each Lean definition mirrors the source function of the same name.
-/

namespace Gameflappy

/-! Constants from `App.js` lines 13-23. -/

def GAME_WIDTH : ℚ := 700
def GAME_HEIGHT : ℚ := 500
def PLAYER_SIZE : ℚ := 34
def GRAVITY : ℚ := 9/10
def JUMP_VELOCITY : ℚ := -14
def HORIZ_SPEED : ℚ := 6
def OBSTACLE_WIDTH : ℚ := 70
def GAP_MIN : ℚ := 120
def GAP_MAX : ℚ := 180
def OBSTACLE_INTERVAL : ℚ := 1600
def OBSTACLE_SPEED : ℚ := 16/5

/-- The literal `16.6667` used as the frame unit in `updatePlayer` and
`updateObstacles`. -/
def FRAME_UNIT : ℚ := 166667/10000

/-- `randomBetween(a, b)` (line 25): `Math.floor(Math.random() * (b - a + 1)) + a`,
with the `Math.random()` draw `u` passed explicitly. -/
def randomBetween (u a b : ℚ) : ℚ :=
  ((⌊u * (b - a + 1)⌋ : ℤ) : ℚ) + a

/-- The player record held in `playerRef` (lines 37-43). -/
structure Player where
  x : ℚ
  y : ℚ
  vy : ℚ
  width : ℚ
  height : ℚ
deriving DecidableEq, Repr

/-- An obstacle record as pushed by `spawnObstacle` (lines 147-155). -/
structure Obstacle where
  x : ℚ
  gapTop : ℚ
  gapHeight : ℚ
  width : ℚ
  speed : ℚ
  passed : Bool
  id : ℚ
deriving DecidableEq, Repr

/-- The held state of ArrowLeft / ArrowRight in `keysRef` as read by
`updatePlayer` (lines 166-171). -/
structure Input where
  left : Bool
  right : Bool
deriving DecidableEq, Repr

/-- The `Math.random()` / `Date.now()` draws consumed by one `spawnObstacle`
call: `u1` for the gap height, `u2` for the gap top, `u3` for the speed
jitter, `idv` for the id. -/
structure Draws where
  u1 : ℚ
  u2 : ℚ
  u3 : ℚ
  idv : ℚ
deriving DecidableEq, Repr

/-- All engine state: the `running` / `gameOver` / `score` / `best` React
state cells and the `playerRef` / `obstaclesRef` / `lastSpawnRef` /
`lastTimeRef` refs. -/
structure GameState where
  running : Bool
  gameOver : Bool
  score : ℤ
  best : ℤ
  player : Player
  obstacles : List Obstacle
  lastSpawn : ℚ
  lastTime : Option ℚ
deriving DecidableEq, Repr

/-- The initial player pose (lines 37-43 and 53-59). -/
def initialPlayer : Player :=
  { x := GAME_WIDTH / 4, y := GAME_HEIGHT / 2, vy := 0
    width := PLAYER_SIZE, height := PLAYER_SIZE }

/-- `resetGame` (lines 52-64): reset player, clear obstacles, zero score,
clear game-over, zero the spawn clock.  `best` is untouched. -/
def resetGame (s : GameState) : GameState :=
  { s with player := initialPlayer, obstacles := [], score := 0
           gameOver := false, lastSpawn := 0 }

/-- `startGame` (lines 67-74): reset, mark running, clear the frame clock. -/
def startGame (s : GameState) : GameState :=
  let s1 := resetGame s
  { s1 with running := true, lastTime := none }

/-- `stopGame` (lines 77-85): stop running, set game-over, and commit the
score to `best` when it is strictly greater. -/
def stopGame (didLose : Bool) (s : GameState) : GameState :=
  { s with running := false, gameOver := didLose
           best := if s.best < s.score then s.score else s.best }

/-- The jump branch of the `keydown` handler (lines 98-101): while running,
Space / ArrowUp set `vy := JUMP_VELOCITY` and lift `y` by 2. -/
def jumpKeydown (s : GameState) : GameState :=
  if s.running then
    { s with player := { s.player with vy := JUMP_VELOCITY, y := s.player.y - 2 } }
  else s

/-- `spawnObstacle` (lines 144-155): new obstacle just past the right edge
with randomized gap and speed. -/
def spawnObstacle (d : Draws) : Obstacle :=
  let gapH := randomBetween d.u1 GAP_MIN GAP_MAX
  let gapTop := randomBetween d.u2 40 (GAME_HEIGHT - gapH - 40)
  { x := GAME_WIDTH + 20, gapTop := gapTop, gapHeight := gapH
    width := OBSTACLE_WIDTH, speed := OBSTACLE_SPEED + d.u3 * (2/5)
    passed := false, id := d.idv }

/-- Appending the spawned obstacle and the length-cap eviction
(lines 147 and 156-159): push, then shift the oldest once length exceeds 10. -/
def pushObstacle (ob : Obstacle) (l : List Obstacle) : List Obstacle :=
  let l1 := l ++ [ob]
  if 10 < l1.length then l1.drop 1 else l1

/-- The horizontal part of `updatePlayer` (lines 166-171): ArrowLeft moves
left, ArrowRight moves right, both independent `if`s. -/
def horizStep (k : Input) (x : ℚ) : ℚ :=
  let x1 := if k.left then x - HORIZ_SPEED else x
  if k.right then x1 + HORIZ_SPEED else x1

/-- The gravity scale `Math.min(dt / 16.6667, 2)` (line 176). -/
def gravScale (dt : ℚ) : ℚ := min (dt / FRAME_UNIT) 2

/-- The velocity after the gravity update `p.vy += GRAVITY * gravScale dt`
(line 176). -/
def vyGrav (dt : ℚ) (p : Player) : ℚ := p.vy + GRAVITY * gravScale dt

/-- The vertical position after integration `p.y += vy * (dt / 16.6667)`
(line 177), before any clamping. -/
def yInt (dt : ℚ) (p : Player) : ℚ := p.y + vyGrav dt p * (dt / FRAME_UNIT)

/-- The vertical clamp `Math.max(0, Math.min(GAME_HEIGHT - p.height, p.y))`
(line 180). -/
def yClamp (dt : ℚ) (p : Player) : ℚ :=
  max 0 (min (GAME_HEIGHT - p.height) (yInt dt p))

/-- `updatePlayer` (lines 163-190): horizontal move and clamp, gravity and
vertical integration, vertical clamp, then the two post-clamp floor/ceiling
checks that would also zero `vy`. -/
def updatePlayer (k : Input) (dt : ℚ) (p : Player) : Player :=
  let xC := max 0 (min (GAME_WIDTH - p.width) (horizStep k p.x))
  let yC := yClamp dt p
  let y2 := if GAME_HEIGHT < yC + p.height then GAME_HEIGHT - p.height else yC
  let vy2 := if GAME_HEIGHT < yC + p.height then 0 else vyGrav dt p
  let y3 := if y2 < 0 then 0 else y2
  let vy3 := if y2 < 0 then 0 else vy2
  { p with x := xC, y := y3, vy := vy3 }

/-- The per-obstacle motion in `updateObstacles` (line 197). -/
def moveOb (dt : ℚ) (ob : Obstacle) : Obstacle :=
  { ob with x := ob.x - ob.speed * (dt / FRAME_UNIT) }

/-- The per-obstacle scoring check in `updateObstacles` (lines 199-202):
an unpassed obstacle whose right edge is strictly left of the player's `x`
is marked passed and yields one point. -/
def scoreOb (px : ℚ) (ob : Obstacle) : Obstacle × ℤ :=
  if ob.passed = false ∧ ob.x + ob.width < px then
    ({ ob with passed := true }, 1)
  else (ob, 0)

/-- One obstacle's full treatment in one `updateObstacles` call: move, then
the scoring check against the moved position. -/
def stepOb (px dt : ℚ) (ob : Obstacle) : Obstacle × ℤ :=
  scoreOb px (moveOb dt ob)

/-- `updateObstacles` (lines 194-206): move and score every obstacle, then
drop the ones fully off-screen (`x + width > -50` kept). -/
def updateObstacles (dt : ℚ) (s : GameState) : GameState :=
  let l := s.obstacles.map (stepOb s.player.x dt)
  { s with
      obstacles := (l.map Prod.fst).filter (fun o => decide ((-50 : ℚ) < o.x + o.width))
      score := s.score + (l.map Prod.snd).sum }

/-- The top barrier rectangle of an obstacle (lines 213-218). -/
structure Rect where
  x : ℚ
  y : ℚ
  w : ℚ
  h : ℚ
deriving DecidableEq, Repr

def topRect (ob : Obstacle) : Rect :=
  { x := ob.x, y := 0, w := ob.width, h := ob.gapTop }

def bottomRect (ob : Obstacle) : Rect :=
  { x := ob.x, y := ob.gapTop + ob.gapHeight, w := ob.width
    h := GAME_HEIGHT - (ob.gapTop + ob.gapHeight) }

/-- `rectIntersect` (lines 234-241): the negated union of the four
strict separation tests. -/
def rectIntersect (p : Player) (r : Rect) : Bool :=
  !(decide (p.x + p.width < r.x) || decide (r.x + r.w < p.x) ||
    decide (p.y + p.height < r.y) || decide (r.y + r.h < p.y))

/-- One obstacle's collision test in `detectCollisions` (line 227). -/
def collidesWith (p : Player) (ob : Obstacle) : Bool :=
  rectIntersect p (topRect ob) || rectIntersect p (bottomRect ob)

/-- `detectCollisions` (lines 209-232): stop the game on the first obstacle
whose top or bottom barrier intersects the player. -/
def detectCollisions (s : GameState) : GameState :=
  if s.obstacles.any (collidesWith s.player) then stopGame true s else s

/-- The frame delta computed at lines 123-125: `lastTimeRef` is first set to
the timestamp when it is falsy (absent or zero), so the delta is zero on such
frames. -/
def dtOf (timestamp : ℚ) (s : GameState) : ℚ :=
  match s.lastTime with
  | none => 0
  | some t => if t = 0 then 0 else timestamp - t

/-- The spawn step of `loop` (lines 128-131): spawn when the interval has
elapsed or the spawn clock is still zero, and reset the spawn clock. -/
def spawnPhase (d : Draws) (timestamp : ℚ) (s : GameState) : GameState :=
  if OBSTACLE_INTERVAL < timestamp - s.lastSpawn ∨ s.lastSpawn = 0 then
    { s with obstacles := pushObstacle (spawnObstacle d) s.obstacles
             lastSpawn := timestamp }
  else s

/-- `loop` (lines 122-141), the per-frame step: frame-delta bookkeeping,
spawn phase, `updatePlayer`, `updateObstacles`, `detectCollisions`.  The
`running` flag is consulted only to schedule the next animation frame, which
is outside the state update. -/
def loop (d : Draws) (k : Input) (timestamp : ℚ) (s : GameState) : GameState :=
  let dt := dtOf timestamp s
  let s1 := spawnPhase d timestamp { s with lastTime := some timestamp }
  let s2 := { s1 with player := updatePlayer k dt s1.player }
  detectCollisions (updateObstacles dt s2)

/-- A whole run of frames, each with its random draws, held keys and
timestamp. -/
def runFrames (s : GameState) (frames : List (Draws × Input × ℚ)) : GameState :=
  frames.foldl (fun st f => loop f.1 f.2.1 f.2.2 st) s

/-- The player bounds invariant claimed by the spec. -/
def inBounds (p : Player) : Prop :=
  0 ≤ p.x ∧ p.x ≤ GAME_WIDTH - p.width ∧ 0 ≤ p.y ∧ p.y ≤ GAME_HEIGHT - p.height

/-- Repeated `updateObstacles` treatment of a single obstacle: thread the
obstacle through a sequence of (player-x, dt) calls, totalling its score
contributions. -/
def runSteps : Obstacle → List (ℚ × ℚ) → Obstacle × ℤ
  | ob, [] => (ob, 0)
  | ob, q :: rest =>
    let r := stepOb q.1 q.2 ob
    let r2 := runSteps r.1 rest
    (r2.1, r.2 + r2.2)

/-- The operations the UI adapter can invoke on the engine. -/
inductive Op where
  | start : Op
  | stop : Bool → Op
  | frame : Draws → Input → ℚ → Op
  | jump : Op

def applyOp (s : GameState) : Op → GameState
  | .start => startGame s
  | .stop d => stopGame d s
  | .frame dr k t => loop dr k t s
  | .jump => jumpKeydown s

def applyOps (s : GameState) (ops : List Op) : GameState :=
  ops.foldl applyOp s

/-- All session fields except the `running` flag, used to state that the
frame step does not consult `running`. -/
def core (s : GameState) : Bool × ℤ × ℤ × Player × List Obstacle × ℚ × Option ℚ :=
  (s.gameOver, s.score, s.best, s.player, s.obstacles, s.lastSpawn, s.lastTime)

/-! Helper lemmas about `updatePlayer`. -/

lemma updatePlayer_x (k : Input) (dt : ℚ) (p : Player) :
    (updatePlayer k dt p).x = max 0 (min (GAME_WIDTH - p.width) (horizStep k p.x)) :=
  rfl

lemma updatePlayer_width (k : Input) (dt : ℚ) (p : Player) :
    (updatePlayer k dt p).width = p.width := rfl

lemma updatePlayer_height (k : Input) (dt : ℚ) (p : Player) :
    (updatePlayer k dt p).height = p.height := rfl

lemma updatePlayer_y_def (k : Input) (dt : ℚ) (p : Player) :
    (updatePlayer k dt p).y =
      (if (if GAME_HEIGHT < yClamp dt p + p.height then GAME_HEIGHT - p.height
           else yClamp dt p) < 0 then 0
       else if GAME_HEIGHT < yClamp dt p + p.height then GAME_HEIGHT - p.height
       else yClamp dt p) := rfl

lemma updatePlayer_vy_def (k : Input) (dt : ℚ) (p : Player) :
    (updatePlayer k dt p).vy =
      (if (if GAME_HEIGHT < yClamp dt p + p.height then GAME_HEIGHT - p.height
           else yClamp dt p) < 0 then 0
       else if GAME_HEIGHT < yClamp dt p + p.height then 0
       else vyGrav dt p) := rfl

/-- With a player no taller than the world, the two post-clamp floor/ceiling
checks of `updatePlayer` never fire: `y` is exactly the clamp of the
integrated position, and `vy` is exactly the post-gravity velocity. -/
lemma updatePlayer_vertical (k : Input) (dt : ℚ) (p : Player)
    (hh : p.height ≤ GAME_HEIGHT) :
    (updatePlayer k dt p).y = yClamp dt p ∧
    (updatePlayer k dt p).vy = vyGrav dt p := by
  have h0 : (0 : ℚ) ≤ GAME_HEIGHT - p.height := sub_nonneg.mpr hh
  have hc0 : 0 ≤ yClamp dt p := le_max_left _ _
  have hct : yClamp dt p ≤ GAME_HEIGHT - p.height :=
    max_le h0 (min_le_left _ _)
  have hc1 : ¬ GAME_HEIGHT < yClamp dt p + p.height := by
    intro h; linarith
  have hc2 : ¬ yClamp dt p < 0 := not_lt.mpr hc0
  refine ⟨?_, ?_⟩
  · rw [updatePlayer_y_def, if_neg hc1, if_neg hc2]
  · rw [updatePlayer_vy_def, if_neg hc1, if_neg hc2, if_neg hc1]

lemma updatePlayer_inBounds (k : Input) (dt : ℚ) (p : Player)
    (hw : p.width ≤ GAME_WIDTH) (hh : p.height ≤ GAME_HEIGHT) :
    inBounds (updatePlayer k dt p) := by
  have hver := updatePlayer_vertical k dt p hh
  unfold inBounds
  rw [updatePlayer_x, updatePlayer_width, updatePlayer_height, hver.1]
  refine ⟨le_max_left _ _, max_le (sub_nonneg.mpr hw) (min_le_left _ _),
    le_max_left _ _, max_le (sub_nonneg.mpr hh) (min_le_left _ _)⟩

/-! Helper lemmas about the frame step `loop`. -/

lemma spawnPhase_player (d : Draws) (t : ℚ) (s : GameState) :
    (spawnPhase d t s).player = s.player := by
  unfold spawnPhase; split <;> rfl

lemma updateObstacles_player (dt : ℚ) (s : GameState) :
    (updateObstacles dt s).player = s.player := rfl

lemma detectCollisions_player (s : GameState) :
    (detectCollisions s).player = s.player := by
  unfold detectCollisions stopGame; split <;> rfl

lemma loop_player (d : Draws) (k : Input) (t : ℚ) (s : GameState) :
    (loop d k t s).player = updatePlayer k (dtOf t s) s.player := by
  show (detectCollisions _).player = _
  rw [detectCollisions_player, updateObstacles_player]
  show updatePlayer k (dtOf t s) (spawnPhase d t { s with lastTime := some t }).player = _
  rw [spawnPhase_player]

lemma loop_width (d : Draws) (k : Input) (t : ℚ) (s : GameState) :
    (loop d k t s).player.width = s.player.width := by
  rw [loop_player, updatePlayer_width]

lemma loop_height (d : Draws) (k : Input) (t : ℚ) (s : GameState) :
    (loop d k t s).player.height = s.player.height := by
  rw [loop_player, updatePlayer_height]

/-! Helper lemmas about per-obstacle scoring. -/

lemma stepOb_of_passed (px dt : ℚ) (ob : Obstacle) (h : ob.passed = true) :
    (stepOb px dt ob).1.passed = true ∧ (stepOb px dt ob).2 = 0 := by
  unfold stepOb scoreOb moveOb
  simp [h]

lemma stepOb_cases (px dt : ℚ) (ob : Obstacle) :
    (stepOb px dt ob).2 = 0 ∨
    ((stepOb px dt ob).2 = 1 ∧ (stepOb px dt ob).1.passed = true) := by
  unfold stepOb scoreOb
  split
  · right; exact ⟨rfl, rfl⟩
  · left; rfl

lemma runSteps_of_passed (params : List (ℚ × ℚ)) (ob : Obstacle)
    (h : ob.passed = true) :
    (runSteps ob params).2 = 0 ∧ (runSteps ob params).1.passed = true := by
  induction params generalizing ob with
  | nil => exact ⟨rfl, h⟩
  | cons q rest ih =>
    have h1 := stepOb_of_passed q.1 q.2 ob h
    have h2 := ih (stepOb q.1 q.2 ob).1 h1.1
    unfold runSteps
    refine ⟨?_, h2.2⟩
    show (stepOb q.1 q.2 ob).2 + (runSteps (stepOb q.1 q.2 ob).1 rest).2 = 0
    rw [h1.2, h2.1]
    decide

lemma runSteps_le_one (params : List (ℚ × ℚ)) (ob : Obstacle) :
    (runSteps ob params).2 ≤ 1 := by
  induction params generalizing ob with
  | nil =>
    show (0 : ℤ) ≤ 1
    decide
  | cons q rest ih =>
    show (stepOb q.1 q.2 ob).2 + (runSteps (stepOb q.1 q.2 ob).1 rest).2 ≤ 1
    rcases stepOb_cases q.1 q.2 ob with h0 | ⟨h1, hp⟩
    · rw [h0]; simpa using ih (stepOb q.1 q.2 ob).1
    · rw [h1, (runSteps_of_passed rest _ hp).1]
      decide

/-! Helper lemmas about the best score. -/

lemma stopGame_best_mono (b : Bool) (s : GameState) :
    s.best ≤ (stopGame b s).best := by
  show s.best ≤ if s.best < s.score then s.score else s.best
  split
  · exact le_of_lt (by assumption)
  · exact le_rfl

lemma detectCollisions_best_mono (s : GameState) :
    s.best ≤ (detectCollisions s).best := by
  unfold detectCollisions
  split
  · exact stopGame_best_mono true s
  · exact le_rfl

lemma spawnPhase_best (d : Draws) (t : ℚ) (s : GameState) :
    (spawnPhase d t s).best = s.best := by
  unfold spawnPhase; split <;> rfl

lemma updateObstacles_best (dt : ℚ) (s : GameState) :
    (updateObstacles dt s).best = s.best := rfl

lemma loop_best_mono (d : Draws) (k : Input) (t : ℚ) (s : GameState) :
    s.best ≤ (loop d k t s).best := by
  show s.best ≤ (detectCollisions (updateObstacles _ _)).best
  have h := detectCollisions_best_mono
    (updateObstacles (dtOf t s)
      { spawnPhase d t { s with lastTime := some t } with
          player := updatePlayer k (dtOf t s)
            (spawnPhase d t { s with lastTime := some t }).player })
  rw [updateObstacles_best] at h
  have hb : ({ spawnPhase d t { s with lastTime := some t } with
      player := updatePlayer k (dtOf t s)
        (spawnPhase d t { s with lastTime := some t }).player } : GameState).best
      = s.best := by
    show (spawnPhase d t { s with lastTime := some t }).best = s.best
    rw [spawnPhase_best]
  rw [hb] at h
  exact h

lemma applyOp_best_mono (s : GameState) (op : Op) :
    s.best ≤ (applyOp s op).best := by
  cases op with
  | start => exact le_rfl
  | stop d => exact stopGame_best_mono d s
  | frame dr k t => exact loop_best_mono dr k t s
  | jump =>
    show s.best ≤ (jumpKeydown s).best
    unfold jumpKeydown
    split <;> exact le_rfl

/-! Concrete inputs used by counterexamples and witnesses. -/

def exDraws : Draws := ⟨0, 0, 0, 0⟩

def exInput : Input := ⟨false, false⟩

/-- A player resting on the floor with downward velocity. -/
def exPlayerFloor : Player := { x := 0, y := 466, vy := 10, width := 34, height := 34 }

/-- A stopped (game-over) session with stale but live state. -/
def exStopped : GameState :=
  { running := false, gameOver := true, score := 0, best := 0
    player := initialPlayer, obstacles := [], lastSpawn := 1, lastTime := some 1 }

/-! Claim theorems. -/

/-- Claim C1, counterexample: from `exPlayerFloor` with one full frame the
integrated `y` exceeds `GAME_HEIGHT - height`, the clamp engages at the
floor, yet the resulting `vy` is not zero (the post-clamp `vy`-zeroing
checks are dead code). -/
theorem updatePlayer_floor_clamp_keeps_vy :
    GAME_HEIGHT - exPlayerFloor.height < yInt FRAME_UNIT exPlayerFloor ∧
    (updatePlayer exInput FRAME_UNIT exPlayerFloor).y =
      GAME_HEIGHT - exPlayerFloor.height ∧
    (updatePlayer exInput FRAME_UNIT exPlayerFloor).vy ≠ 0 := by
  refine ⟨?_, ?_, ?_⟩ <;>
    norm_num [exPlayerFloor, exInput, updatePlayer, yClamp, yInt, vyGrav, gravScale,
      horizStep, GAME_HEIGHT, GAME_WIDTH, GRAVITY, HORIZ_SPEED, FRAME_UNIT]

/-- Claim C1 (corrected): after the vertical update, `y` is clamped into
`[0, WORLD_HEIGHT - height]`, but `vy` is never zeroed by the clamp: it
always equals the post-gravity velocity, even when the clamp engages at the
floor or the ceiling, because the floor/ceiling checks run after the clamp
and can no longer fire. -/
theorem updatePlayer_clamps_y_keeps_vy (k : Input) (dt : ℚ) (p : Player)
    (hh : p.height ≤ GAME_HEIGHT) :
    (updatePlayer k dt p).y = yClamp dt p ∧
    (updatePlayer k dt p).vy = vyGrav dt p :=
  updatePlayer_vertical k dt p hh

theorem updatePlayer_clamps_y_keeps_vy_witness :
    (updatePlayer exInput FRAME_UNIT exPlayerFloor).y =
      yClamp FRAME_UNIT exPlayerFloor ∧
    (updatePlayer exInput FRAME_UNIT exPlayerFloor).vy =
      vyGrav FRAME_UNIT exPlayerFloor :=
  updatePlayer_clamps_y_keeps_vy exInput FRAME_UNIT exPlayerFloor
    (by norm_num [exPlayerFloor, GAME_HEIGHT])

/-- Claim C8 (confirmed): holding both ArrowLeft and ArrowRight in the same
step produces the same `x` as holding neither, from the same starting state:
opposite horizontal inputs cancel. -/
theorem opposite_inputs_cancel (dt : ℚ) (p : Player) :
    (updatePlayer ⟨true, true⟩ dt p).x = (updatePlayer ⟨false, false⟩ dt p).x := by
  rw [updatePlayer_x, updatePlayer_x]
  have h : horizStep ⟨true, true⟩ p.x = horizStep ⟨false, false⟩ p.x := by
    show p.x - HORIZ_SPEED + HORIZ_SPEED = p.x
    ring
  rw [h]

/-- Claim C9 (confirmed): `startGame` (the common body of start and restart)
is idempotent, and the state it produces has score 0, no obstacles, a zeroed
spawn clock, and the player at the initial pose with `vy = 0`. -/
theorem startGame_idempotent (s : GameState) :
    startGame (startGame s) = startGame s ∧
    (startGame s).score = 0 ∧
    (startGame s).obstacles = [] ∧
    (startGame s).lastSpawn = 0 ∧
    (startGame s).player = initialPlayer ∧
    (startGame s).player.vy = 0 :=
  ⟨rfl, rfl, rfl, rfl, rfl, rfl⟩

/-- An idle session as at first construction. -/
def exIdle : GameState :=
  { running := false, gameOver := false, score := 0, best := 0
    player := initialPlayer, obstacles := [], lastSpawn := 0, lastTime := none }

/-- Claim C3 (confirmed): from any state whose player fits the world, after
every nonempty sequence of frame steps (any draws, held keys and timestamps)
the player position satisfies `0 ≤ x ≤ WORLD_WIDTH - width` and
`0 ≤ y ≤ WORLD_HEIGHT - height`. -/
theorem player_in_bounds_after_frames (s : GameState)
    (frames : List (Draws × Input × ℚ))
    (hw : s.player.width ≤ GAME_WIDTH) (hh : s.player.height ≤ GAME_HEIGHT)
    (hne : frames ≠ []) :
    inBounds (runFrames s frames).player := by
  induction frames generalizing s with
  | nil => exact absurd rfl hne
  | cons f rest ih =>
    have hstep : runFrames s (f :: rest) = runFrames (loop f.1 f.2.1 f.2.2 s) rest :=
      rfl
    cases rest with
    | nil =>
      rw [hstep]
      show inBounds (loop f.1 f.2.1 f.2.2 s).player
      rw [loop_player]
      exact updatePlayer_inBounds _ _ _ hw hh
    | cons g rest2 =>
      rw [hstep]
      refine ih (loop f.1 f.2.1 f.2.2 s) ?_ ?_ (by simp)
      · rw [loop_width]; exact hw
      · rw [loop_height]; exact hh

theorem player_in_bounds_after_frames_witness :
    inBounds (runFrames (startGame exIdle) [(exDraws, exInput, 16)]).player :=
  player_in_bounds_after_frames (startGame exIdle) [(exDraws, exInput, 16)]
    (by norm_num [startGame, resetGame, exIdle, initialPlayer, PLAYER_SIZE, GAME_WIDTH])
    (by norm_num [startGame, resetGame, exIdle, initialPlayer, PLAYER_SIZE, GAME_HEIGHT])
    (by simp)

/-- Claim C4 (confirmed): one `updateObstacles` call awards an obstacle +1
exactly when it was not yet passed and its moved right edge is strictly left
of the player's left edge, in which case it becomes passed; a passed
obstacle contributes 0 forever after, and over any sequence of calls one
obstacle contributes at most 1 in total.  The score after `updateObstacles`
is the old score plus the per-obstacle contributions. -/
theorem obstacle_scored_at_most_once (px dt : ℚ) (ob : Obstacle) (s : GameState)
    (params : List (ℚ × ℚ)) :
    ((stepOb px dt ob).2 = 1 ↔
      ob.passed = false ∧ (moveOb dt ob).x + ob.width < px) ∧
    ((stepOb px dt ob).2 = 1 → (stepOb px dt ob).1.passed = true) ∧
    (ob.passed = true → (runSteps ob params).2 = 0) ∧
    (runSteps ob params).2 ≤ 1 ∧
    (updateObstacles dt s).score =
      s.score + (s.obstacles.map (fun o => (stepOb s.player.x dt o).2)).sum := by
  refine ⟨?_, ?_, fun h => (runSteps_of_passed params ob h).1,
    runSteps_le_one params ob, ?_⟩
  · constructor
    · intro h
      by_cases hc : (moveOb dt ob).passed = false ∧
          (moveOb dt ob).x + (moveOb dt ob).width < px
      · exact ⟨hc.1, hc.2⟩
      · have h0 : (stepOb px dt ob).2 = 0 := by
          unfold stepOb scoreOb
          rw [if_neg hc]
        rw [h0] at h
        exact absurd h (by decide)
    · intro hc
      show (scoreOb px (moveOb dt ob)).2 = 1
      unfold scoreOb
      rw [if_pos ⟨hc.1, hc.2⟩]
  · intro h
    rcases stepOb_cases px dt ob with h0 | ⟨_, hp⟩
    · rw [h0] at h; exact absurd h (by decide)
    · exact hp
  · show s.score + ((s.obstacles.map (stepOb s.player.x dt)).map Prod.snd).sum = _
    rw [List.map_map]
    rfl

/-- An obstacle that has not yet been passed, well left of the player. -/
def exObUnpassed : Obstacle :=
  { x := 0, gapTop := 100, gapHeight := 150, width := 70, speed := 16/5
    passed := false, id := 0 }

theorem obstacle_scored_at_most_once_witness :
    (stepOb 200 0 exObUnpassed).2 = 1 ∧
    (stepOb 200 0 exObUnpassed).1.passed = true := by
  have h := obstacle_scored_at_most_once 200 0 exObUnpassed exIdle []
  have hc : exObUnpassed.passed = false ∧
      (moveOb 0 exObUnpassed).x + exObUnpassed.width < 200 := by
    norm_num [exObUnpassed, moveOb, FRAME_UNIT]
  exact ⟨h.1.mpr hc, h.2.1 (h.1.mpr hc)⟩

/-- Claim C5 (confirmed): `rectIntersect` is true exactly when the closed
rectangles share a point (given nonnegative extents), and a barrier edge
flush against the player (`p.x + p.width = r.x`, with vertical ranges
touching or overlapping) is reported as a collision. -/
theorem rectIntersect_closed_overlap (p : Player) (r : Rect)
    (hpw : 0 ≤ p.width) (hph : 0 ≤ p.height) (hrw : 0 ≤ r.w) (hrh : 0 ≤ r.h) :
    (rectIntersect p r = true ↔ ∃ qx qy : ℚ,
      (p.x ≤ qx ∧ qx ≤ p.x + p.width ∧ p.y ≤ qy ∧ qy ≤ p.y + p.height) ∧
      (r.x ≤ qx ∧ qx ≤ r.x + r.w ∧ r.y ≤ qy ∧ qy ≤ r.y + r.h)) ∧
    (p.x + p.width = r.x → r.y ≤ p.y + p.height → p.y ≤ r.y + r.h →
      rectIntersect p r = true) := by
  have hbool : rectIntersect p r = true ↔
      (r.x ≤ p.x + p.width ∧ p.x ≤ r.x + r.w ∧
       r.y ≤ p.y + p.height ∧ p.y ≤ r.y + r.h) := by
    unfold rectIntersect
    simp [not_lt, not_or, and_assoc]
  constructor
  · rw [hbool]
    constructor
    · rintro ⟨h1, h2, h3, h4⟩
      exact ⟨max p.x r.x, max p.y r.y,
        ⟨le_max_left _ _, max_le (by linarith) h1,
         le_max_left _ _, max_le (by linarith) h3⟩,
        ⟨le_max_right _ _, max_le h2 (by linarith),
         le_max_right _ _, max_le h4 (by linarith)⟩⟩
    · rintro ⟨qx, qy, ⟨ha1, ha2, ha3, ha4⟩, hb1, hb2, hb3, hb4⟩
      exact ⟨by linarith, by linarith, by linarith, by linarith⟩
  · intro he hy1 hy2
    rw [hbool]
    exact ⟨le_of_eq he.symm, by linarith, hy1, hy2⟩

def exPlayerTouch : Player := { x := 0, y := 0, vy := 0, width := 34, height := 34 }

def exRectTouch : Rect := { x := 34, y := 0, w := 70, h := 100 }

theorem rectIntersect_closed_overlap_witness :
    rectIntersect exPlayerTouch exRectTouch = true :=
  (rectIntersect_closed_overlap exPlayerTouch exRectTouch
      (by norm_num [exPlayerTouch]) (by norm_num [exPlayerTouch])
      (by norm_num [exRectTouch]) (by norm_num [exRectTouch])).2
    (by norm_num [exPlayerTouch, exRectTouch])
    (by norm_num [exPlayerTouch, exRectTouch])
    (by norm_num [exPlayerTouch, exRectTouch])

/-- Claim C7 (confirmed): `stopGame` commits the current score to `best`
exactly when it is strictly greater, and over every sequence of engine
operations `best` is monotonically non-decreasing. -/
theorem best_committed_and_monotone (dl : Bool) (s : GameState) (ops : List Op) :
    (stopGame dl s).best = (if s.best < s.score then s.score else s.best) ∧
    s.best ≤ (applyOps s ops).best := by
  refine ⟨rfl, ?_⟩
  induction ops generalizing s with
  | nil => exact le_rfl
  | cons op rest ih =>
    exact le_trans (applyOp_best_mono s op) (ih (applyOp s op))

/-- Claim C2, counterexample: from a stopped (game-over) session, invoking
the frame step still applies gravity to the stale player, so the state is
mutated: `step` outside Running is not a no-op. -/
theorem loop_mutates_stopped_state :
    exStopped.running = false ∧
    (loop exDraws exInput 10 exStopped).player.vy ≠ exStopped.player.vy ∧
    loop exDraws exInput 10 exStopped ≠ exStopped := by
  have hvy : (loop exDraws exInput 10 exStopped).player.vy =
      vyGrav (dtOf 10 exStopped) exStopped.player := by
    rw [loop_player]
    exact (updatePlayer_vertical exInput (dtOf 10 exStopped) exStopped.player
      (by norm_num [exStopped, initialPlayer, PLAYER_SIZE, GAME_HEIGHT])).2
  have hne : (loop exDraws exInput 10 exStopped).player.vy ≠ exStopped.player.vy := by
    rw [hvy]
    norm_num [exStopped, initialPlayer, vyGrav, gravScale, dtOf, GRAVITY,
      FRAME_UNIT, min_def, PLAYER_SIZE]
  exact ⟨rfl, hne, fun h => hne (by rw [h])⟩

/-- Claim C2 (corrected): the frame step never consults the Running flag for
its state update: every field other than `running` evolves identically
whatever the flag, and the player is always advanced by `updatePlayer`.  The
engine is protected only by the scheduler not issuing frames outside
Running, not by `loop` being a no-op. -/
theorem loop_ignores_running_flag (d : Draws) (k : Input) (t : ℚ) (s : GameState)
    (b1 b2 : Bool) :
    core (loop d k t { s with running := b1 }) =
      core (loop d k t { s with running := b2 }) ∧
    (loop d k t s).player = updatePlayer k (dtOf t s) s.player := by
  refine ⟨?_, loop_player d k t s⟩
  cases s with
  | mk running gameOver score best player obstacles lastSpawn lastTime =>
    simp only [loop, core, detectCollisions, updateObstacles, spawnPhase,
      stopGame, dtOf]
    split_ifs <;> rfl

/-! Helper lemmas about `randomBetween`. -/

lemma randomBetween_bounds (u a b : ℚ) (n : ℤ) (hu0 : 0 ≤ u) (hu1 : u < 1)
    (hn : b - a = (n : ℚ)) (hn0 : 0 ≤ n) :
    a ≤ randomBetween u a b ∧ randomBetween u a b ≤ b := by
  have hcast : (0 : ℚ) ≤ (n : ℚ) := by exact_mod_cast hn0
  have hc : (0 : ℚ) < (n : ℚ) + 1 := by linarith
  have harg : u * (b - a + 1) = u * ((n : ℚ) + 1) := by rw [hn]
  have h1 : (0 : ℤ) ≤ ⌊u * (b - a + 1)⌋ := by
    rw [Int.le_floor, harg]
    push_cast
    exact mul_nonneg hu0 (le_of_lt hc)
  have h2 : ⌊u * (b - a + 1)⌋ < n + 1 := by
    rw [Int.floor_lt, harg]
    push_cast
    exact mul_lt_of_lt_one_left hc hu1
  have h1q : (0 : ℚ) ≤ ((⌊u * (b - a + 1)⌋ : ℤ) : ℚ) := by exact_mod_cast h1
  have h2q : ((⌊u * (b - a + 1)⌋ : ℤ) : ℚ) ≤ (n : ℚ) := by
    have h3 : ⌊u * (b - a + 1)⌋ ≤ n := by omega
    exact_mod_cast h3
  unfold randomBetween
  constructor
  · linarith
  · linarith

lemma randomBetween_int_shift (u a b : ℚ) (m : ℤ) (ha : a = (m : ℚ)) :
    randomBetween u a b = ((⌊u * (b - a + 1)⌋ + m : ℤ) : ℚ) := by
  unfold randomBetween
  rw [ha]
  push_cast
  ring

/-- Claim C6 (confirmed): for draws in `[0, 1)`, `spawnObstacle` yields
`GAP_MIN ≤ gapHeight ≤ GAP_MAX` and `40 ≤ gapTop ≤ WORLD_HEIGHT - gapHeight
- 40`, so the top segment (height `gapTop`) and the bottom segment (height
`WORLD_HEIGHT - gapTop - gapHeight`) are both at least 40 tall. -/
theorem spawnObstacle_gap_valid (d : Draws)
    (h1 : 0 ≤ d.u1) (h2 : d.u1 < 1) (h3 : 0 ≤ d.u2) (h4 : d.u2 < 1) :
    GAP_MIN ≤ (spawnObstacle d).gapHeight ∧
    (spawnObstacle d).gapHeight ≤ GAP_MAX ∧
    40 ≤ (spawnObstacle d).gapTop ∧
    (spawnObstacle d).gapTop ≤ GAME_HEIGHT - (spawnObstacle d).gapHeight - 40 ∧
    40 ≤ GAME_HEIGHT - (spawnObstacle d).gapTop - (spawnObstacle d).gapHeight := by
  have egH : (spawnObstacle d).gapHeight = randomBetween d.u1 GAP_MIN GAP_MAX := rfl
  have egT : (spawnObstacle d).gapTop =
      randomBetween d.u2 40 (GAME_HEIGHT - randomBetween d.u1 GAP_MIN GAP_MAX - 40) :=
    rfl
  have hgh := randomBetween_bounds d.u1 GAP_MIN GAP_MAX 60 h1 h2
    (by norm_num [GAP_MIN, GAP_MAX]) (by norm_num)
  have hshift := randomBetween_int_shift d.u1 GAP_MIN GAP_MAX 120
    (by norm_num [GAP_MIN])
  set k : ℤ := ⌊d.u1 * (GAP_MAX - GAP_MIN + 1)⌋ + 120 with hk
  have hk180 : k ≤ 180 := by
    have hq := hgh.2
    rw [hshift] at hq
    norm_num [GAP_MAX] at hq
    exact_mod_cast hq
  have hn2 : (GAME_HEIGHT - randomBetween d.u1 GAP_MIN GAP_MAX - 40) - 40 =
      ((420 - k : ℤ) : ℚ) := by
    rw [hshift]
    push_cast
    norm_num [GAME_HEIGHT]
    ring
  have hgt := randomBetween_bounds d.u2 40
    (GAME_HEIGHT - randomBetween d.u1 GAP_MIN GAP_MAX - 40) (420 - k) h3 h4 hn2
    (by omega)
  rw [egH, egT]
  refine ⟨hgh.1, hgh.2, hgt.1, hgt.2, ?_⟩
  have h5 := hgt.2
  linarith

def exDrawsMid : Draws := ⟨1/2, 1/2, 0, 0⟩

theorem spawnObstacle_gap_valid_witness :
    GAP_MIN ≤ (spawnObstacle exDrawsMid).gapHeight ∧
    (spawnObstacle exDrawsMid).gapHeight ≤ GAP_MAX ∧
    40 ≤ (spawnObstacle exDrawsMid).gapTop ∧
    (spawnObstacle exDrawsMid).gapTop ≤
      GAME_HEIGHT - (spawnObstacle exDrawsMid).gapHeight - 40 ∧
    40 ≤ GAME_HEIGHT - (spawnObstacle exDrawsMid).gapTop -
      (spawnObstacle exDrawsMid).gapHeight :=
  spawnObstacle_gap_valid exDrawsMid (by norm_num [exDrawsMid])
    (by norm_num [exDrawsMid]) (by norm_num [exDrawsMid]) (by norm_num [exDrawsMid])

/-- Claim C10 (confirmed): `randomBetween` with integer endpoints and a draw
in `[0, 1)` returns an integer-valued rational in the inclusive range
`[a, b]`, and the gap geometry produced by `spawnObstacle` is always
integer-valued. -/
theorem randomBetween_integral (u : ℚ) (a b : ℤ) (d : Draws)
    (hu0 : 0 ≤ u) (hu1 : u < 1) (hab : a ≤ b) :
    (∃ k : ℤ, randomBetween u (a : ℚ) (b : ℚ) = (k : ℚ) ∧ a ≤ k ∧ k ≤ b) ∧
    (∃ k : ℤ, (spawnObstacle d).gapHeight = (k : ℚ)) ∧
    (∃ k : ℤ, (spawnObstacle d).gapTop = (k : ℚ)) := by
  have hfloor := randomBetween_int_shift u (a : ℚ) (b : ℚ) a rfl
  have hb := randomBetween_bounds u (a : ℚ) (b : ℚ) (b - a) hu0 hu1
    (by push_cast; ring) (by omega)
  refine ⟨⟨⌊u * ((b : ℚ) - (a : ℚ) + 1)⌋ + a, hfloor, ?_, ?_⟩, ?_, ?_⟩
  · have h := hb.1
    rw [hfloor] at h
    exact_mod_cast h
  · have h := hb.2
    rw [hfloor] at h
    exact_mod_cast h
  · exact ⟨⌊d.u1 * (GAP_MAX - GAP_MIN + 1)⌋ + 120,
      randomBetween_int_shift d.u1 GAP_MIN GAP_MAX 120 (by norm_num [GAP_MIN])⟩
  · exact ⟨⌊d.u2 * ((GAME_HEIGHT - randomBetween d.u1 GAP_MIN GAP_MAX - 40) - 40 + 1)⌋ + 40,
      randomBetween_int_shift d.u2 40
        (GAME_HEIGHT - randomBetween d.u1 GAP_MIN GAP_MAX - 40) 40 (by norm_num)⟩

theorem randomBetween_integral_witness :
    (∃ k : ℤ, randomBetween (1/2) ((0 : ℤ) : ℚ) ((9 : ℤ) : ℚ) = (k : ℚ) ∧
      (0 : ℤ) ≤ k ∧ k ≤ 9) ∧
    (∃ k : ℤ, (spawnObstacle exDrawsMid).gapHeight = (k : ℚ)) ∧
    (∃ k : ℤ, (spawnObstacle exDrawsMid).gapTop = (k : ℚ)) :=
  randomBetween_integral (1/2) 0 9 exDrawsMid (by norm_num) (by norm_num)
    (by norm_num)

end Gameflappy
